import Mathlib

/-!
Verification of the noaa-tides client library.

This file gives a shallow embedding of the parameter-encoding and
response-decoding layer of the `noaa-tides` Rust crate:

* `src/parameters.rs` — the `Datum`, `Timezone`, `Interval`, `Units`
  enumerations with their serde wire tokens, and `DateRange` with its
  `%Y%m%d` date serializer;
* `src/products/mod.rs` — the field-level decoders
  `de_string_to_f32` and `de_string_to_native_datetime`;
* `src/products/predictions.rs` — `PredictionsRequest`, `Prediction`,
  `PredictionsResponse`, `TideType` and their serde encodings/decodings;
* `src/lib.rs` — the untagged `NoaaResponse` success-or-error envelope,
  `ErrorWrapper`/`ApiError`, `NoaaTideError`, and the decode stage of
  `NoaaTideClient::fetch`.

External library behaviour that the source relies on is modelled from the
libraries' documented semantics: chrono's `format`/`parse_from_str` for the
fixed format strings `"%Y%m%d"` and `"%Y-%m-%d %H:%M"`, Rust's
`str::parse::<f32>` grammar, serde's derived (de)serializers, serde_json's
value-level decoding, and serde_urlencoded's form encoding.  JSON numbers
and parsed floating-point magnitudes are modelled as exact rationals: no
claim below depends on f32 rounding, only on which inputs are accepted.
-/

namespace NoaaTides

/-! ## JSON values (serde_json::Value) -/

/-- JSON value tree, as produced by serde_json.  Numbers are modelled as
exact rationals; the decoders under verification never accept a JSON
number, so rounding is irrelevant. -/
inductive Json where
  | null : Json
  | bool (b : Bool) : Json
  | num (q : ℚ) : Json
  | str (s : String) : Json
  | arr (elems : List Json) : Json
  | obj (fields : List (String × Json)) : Json

/-! ## Parameter model (src/parameters.rs) -/

/-- Datum options (`pub enum Datum`), serde derive with no rename:
tokens are the variant names verbatim. -/
inductive Datum where
  | MHHW | MHW | MTL | MSL | MLW | MLLW | CRD | IGLD | LWD | NAVD | STND
deriving DecidableEq, Fintype

/-- Wire token of a `Datum` variant (derived `Serialize`, no rename
attribute: the variant name itself). -/
def Datum.token : Datum → String
  | .MHHW => "MHHW"
  | .MHW => "MHW"
  | .MTL => "MTL"
  | .MSL => "MSL"
  | .MLW => "MLW"
  | .MLLW => "MLLW"
  | .CRD => "CRD"
  | .IGLD => "IGLD"
  | .LWD => "LWD"
  | .NAVD => "NAVD"
  | .STND => "STND"

/-- Timezone options (`pub enum Timezone`), `#[serde(rename_all = "lowercase")]`. -/
inductive Timezone where
  | GMT | LST | LST_LDT
deriving DecidableEq, Fintype

/-- Wire token of a `Timezone` variant (`rename_all = "lowercase"`:
the variant name lower-cased). -/
def Timezone.token : Timezone → String
  | .GMT => "gmt"
  | .LST => "lst"
  | .LST_LDT => "lst_ldt"

/-- Interval options (`pub enum Interval`) with explicit per-variant
`#[serde(rename = ...)]` tokens. -/
inductive Interval where
  | Hourly | HighLow | OneMinute | FiveMinutes | SixMinutes
  | TenMinutes | FifteenMinutes | ThirtyMinutes | SixtyMinutes
deriving DecidableEq, Fintype

/-- Wire token of an `Interval` variant (the explicit rename strings). -/
def Interval.token : Interval → String
  | .Hourly => "h"
  | .HighLow => "hilo"
  | .OneMinute => "1"
  | .FiveMinutes => "5"
  | .SixMinutes => "6"
  | .TenMinutes => "10"
  | .FifteenMinutes => "15"
  | .ThirtyMinutes => "30"
  | .SixtyMinutes => "60"

/-- Units options (`pub enum Units`), `#[serde(rename_all = "lowercase")]`. -/
inductive Units where
  | Metric | English
deriving DecidableEq, Fintype

/-- Wire token of a `Units` variant. -/
def Units.token : Units → String
  | .Metric => "metric"
  | .English => "english"

/-! ## Dates and the chrono `%Y%m%d` formatter -/

/-- A chrono `NaiveDate`, represented by its calendar fields.  chrono
restricts years to `-262144..=262143`; that bound is part of
`NaiveDate.Valid` below rather than of the type. -/
structure NaiveDate where
  year : Int
  month : Nat
  day : Nat
deriving DecidableEq

/-- Proleptic-Gregorian leap-year test (chrono's rule). -/
def isLeapYear (y : Int) : Bool :=
  y % 4 = 0 && (y % 100 ≠ 0 || y % 400 = 0)

/-- Number of days in a month of a given year; `0` for an invalid month
index. -/
def daysInMonth (y : Int) (m : Nat) : Nat :=
  if m = 2 then (if isLeapYear y then 29 else 28)
  else if m = 4 ∨ m = 6 ∨ m = 9 ∨ m = 11 then 30
  else if m = 1 ∨ m = 3 ∨ m = 5 ∨ m = 7 ∨ m = 8 ∨ m = 10 ∨ m = 12 then 31
  else 0

/-- The dates representable as a chrono `NaiveDate`. -/
def NaiveDate.Valid (d : NaiveDate) : Prop :=
  -262144 ≤ d.year ∧ d.year ≤ 262143 ∧
  1 ≤ d.month ∧ d.month ≤ 12 ∧
  1 ≤ d.day ∧ d.day ≤ daysInMonth d.year d.month

instance (d : NaiveDate) : Decidable d.Valid := by
  unfold NaiveDate.Valid; infer_instance

/-- Decimal digit character for `n < 10`. -/
def digitChar (n : Nat) : Char := Char.ofNat (48 + n)

/-- Little-endian base-10 digits of `n`, with explicit fuel so that the
kernel can evaluate it; `natDigitList` supplies adequate fuel. -/
def natToDigitsRev : Nat → Nat → List Nat
  | 0, _ => []
  | fuel + 1, n => if n = 0 then [] else n % 10 :: natToDigitsRev fuel (n / 10)

/-- Little-endian base-10 digits of `n` (empty for 0); agrees with
`Nat.digits 10 n`. -/
def natDigitList (n : Nat) : List Nat := natToDigitsRev n n

/-- Decimal digit characters of `n`, most significant first (empty for 0). -/
def natDigits (n : Nat) : List Char :=
  (natDigitList n).reverse.map digitChar

/-- Decimal rendering of `n` zero-padded on the left to width `w`
(never truncating), as Rust's `write!("{:0w$}", n)` does. -/
def padDigits (w : Nat) (n : Nat) : List Char :=
  List.replicate (w - (natDigits n).length) '0' ++ natDigits n

/-- Chrono's `%Y` formatting of a year with zero padding: years in
`0..=9999` print as exactly four zero-padded digits; years outside that
range print with an explicit sign followed by the zero-padded absolute
value (Rust `write!("{:+05}", y)`). -/
def formatYear (y : Int) : List Char :=
  if 0 ≤ y ∧ y < 10000 then padDigits 4 y.toNat
  else (if y < 0 then '-' else '+') :: padDigits 4 y.natAbs

/-- The `yyyymmdd::serialize` helper of `src/parameters.rs`:
`date.format("%Y%m%d").to_string()`. -/
def formatYYYYMMDD (d : NaiveDate) : String :=
  ⟨formatYear d.year ++ padDigits 2 d.month ++ padDigits 2 d.day⟩

/-- The `DateRange` struct of `src/parameters.rs`; both bounds serialize
through `yyyymmdd::serialize`. -/
structure DateRange where
  begin_date : NaiveDate
  end_date : NaiveDate
deriving DecidableEq

/-- Validity of a `DateRange`: both bounds are representable dates.  The
source deliberately does not constrain `begin ≤ end` locally. -/
def DateRange.Valid (r : DateRange) : Prop :=
  r.begin_date.Valid ∧ r.end_date.Valid

instance (r : DateRange) : Decidable r.Valid := by
  unfold DateRange.Valid; infer_instance

/-! ## Request encoding (serde_urlencoded over the derived Serialize) -/

/-- UTF-8 bytes of a character (RFC 3629 arithmetic). -/
def charUtf8Bytes (c : Char) : List Nat :=
  let n := c.toNat
  if n < 128 then [n]
  else if n < 2048 then [192 + n / 64, 128 + n % 64]
  else if n < 65536 then [224 + n / 4096, 128 + (n / 64) % 64, 128 + n % 64]
  else [240 + n / 262144, 128 + (n / 4096) % 64, 128 + (n / 64) % 64, 128 + n % 64]

/-- Upper-case hexadecimal digit for `n < 16`. -/
def hexUpper (n : Nat) : Char :=
  if n < 10 then digitChar n else Char.ofNat (55 + n)

/-- Percent-encoding of one byte under the `application/x-www-form-urlencoded`
set used by serde_urlencoded: ASCII alphanumerics and `*-._` pass through,
space becomes `+`, everything else becomes `%XX`. -/
def encodeByte (b : Nat) : List Char :=
  if (65 ≤ b ∧ b ≤ 90) ∨ (97 ≤ b ∧ b ≤ 122) ∨ (48 ≤ b ∧ b ≤ 57) ∨
      b = 42 ∨ b = 45 ∨ b = 46 ∨ b = 95 then [Char.ofNat b]
  else if b = 32 then ['+']
  else ['%', hexUpper (b / 16), hexUpper (b % 16)]

/-- Form-urlencoding of a string: UTF-8 encode, then percent-encode each
byte. -/
def formUrlEncode (s : String) : String :=
  ⟨(s.data.map (fun c => ((charUtf8Bytes c).map encodeByte).flatten)).flatten⟩

/-- The `PredictionsRequest` struct of `src/products/predictions.rs`. -/
structure PredictionsRequest where
  station : String
  datum : Datum
  time_zone : Timezone
  interval : Interval
  units : Units
  date_range : DateRange

/-- Query pairs produced by the derived `Serialize` of
`PredictionsRequest`: fields in declaration order with their member names
verbatim; `#[serde(flatten)]` splices the two `DateRange` fields into the
same flat namespace at the position of `date_range`. -/
def PredictionsRequest.queryPairs (r : PredictionsRequest) : List (String × String) :=
  [("station", r.station),
   ("datum", r.datum.token),
   ("time_zone", r.time_zone.token),
   ("interval", r.interval.token),
   ("units", r.units.token),
   ("begin_date", formatYYYYMMDD r.date_range.begin_date),
   ("end_date", formatYYYYMMDD r.date_range.end_date)]

/-- serde_urlencoded's rendering of a pair list: `k=v` joined by `&`,
both sides form-urlencoded. -/
def encodeQuery (ps : List (String × String)) : String :=
  String.intercalate "&" (ps.map (fun p => formUrlEncode p.1 ++ "=" ++ formUrlEncode p.2))

/-! ## Bridging the fuel-based digits to Mathlib's `Nat.digits` -/

theorem natToDigitsRev_eq_digits : ∀ (fuel n : Nat), n ≤ fuel →
    natToDigitsRev fuel n = Nat.digits 10 n := by
  intro fuel
  induction fuel with
  | zero =>
    intro n hn
    have : n = 0 := Nat.le_zero.mp hn
    subst this
    simp [natToDigitsRev]
  | succ f ih =>
    intro n hn
    by_cases hz : n = 0
    · subst hz; simp [natToDigitsRev]
    · rw [natToDigitsRev]
      simp only [hz, if_false]
      have hrec : n / 10 ≤ f := by
        have hlt : n / 10 < n := Nat.div_lt_self (Nat.pos_of_ne_zero hz) (by norm_num)
        omega
      rw [ih (n / 10) hrec, ← Nat.digits_def' (by norm_num : (1:Nat) < 10) (Nat.pos_of_ne_zero hz)]

theorem natDigitList_eq_digits (n : Nat) : natDigitList n = Nat.digits 10 n :=
  natToDigitsRev_eq_digits n n le_rfl

/-! ## The request used in the repository's own query-string test -/

/-- The concrete request of the `request_query` test in
`src/products/predictions.rs`. -/
def exampleRequest : PredictionsRequest :=
  { station := "1234567", datum := .MLLW, time_zone := .LST_LDT,
    interval := .HighLow, units := .English,
    date_range := { begin_date := ⟨2026, 1, 1⟩, end_date := ⟨2026, 1, 31⟩ } }

/-- C3: every variant of the Datum, Timezone, Interval and Units
enumerations encodes to exactly one fixed wire token drawn from the
mapping table (the encoding is a total function), the sample tokens
"hilo", "lst_ldt" and "english" are as claimed, and on each enumeration
the encoding is injective. -/
theorem enum_token_encoding_total_injective :
    (∀ d : Datum, d.token ∈
      ["MHHW", "MHW", "MTL", "MSL", "MLW", "MLLW", "CRD", "IGLD", "LWD", "NAVD", "STND"]) ∧
    (∀ t : Timezone, t.token ∈ ["gmt", "lst", "lst_ldt"]) ∧
    (∀ i : Interval, i.token ∈ ["h", "hilo", "1", "5", "6", "10", "15", "30", "60"]) ∧
    (∀ u : Units, u.token ∈ ["metric", "english"]) ∧
    Interval.token .HighLow = "hilo" ∧
    Timezone.token .LST_LDT = "lst_ldt" ∧
    Units.token .English = "english" ∧
    Function.Injective Datum.token ∧
    Function.Injective Timezone.token ∧
    Function.Injective Interval.token ∧
    Function.Injective Units.token := by
  refine ⟨?_, ?_, ?_, ?_, rfl, rfl, rfl, ?_, ?_, ?_, ?_⟩ <;> decide

/-- C5: the concrete `PredictionsRequest` of the repository's test encodes
to exactly the literal query string, with field names taken verbatim from
the member names and the two DateRange fields flattened into the same flat
parameter namespace (appearing last, in declaration order). -/
theorem predictions_request_query_literal :
    exampleRequest.queryPairs =
      [("station", "1234567"), ("datum", "MLLW"), ("time_zone", "lst_ldt"),
       ("interval", "hilo"), ("units", "english"),
       ("begin_date", "20260101"), ("end_date", "20260131")] ∧
    encodeQuery exampleRequest.queryPairs =
      "station=1234567&datum=MLLW&time_zone=lst_ldt&interval=hilo&units=english&begin_date=20260101&end_date=20260131" := by
  exact ⟨by decide, by decide⟩

/-! ## Values of digit strings -/

/-- Numeric value of a decimal digit character. -/
def charToDigit (c : Char) : Nat := c.toNat - 48

/-- Value of a most-significant-first decimal digit string (Horner
evaluation, as an integer parser computes it). -/
def digitsVal (cs : List Char) : Nat :=
  cs.foldl (fun a c => a * 10 + charToDigit c) 0

/-- Modelled from the spec: the repository encodes dates to `YYYYMMDD`
but never parses them back; §8 of the spec speaks of "re-parsing the
8-digit token".  This parser accepts exactly 8 decimal digits, reads the
fields in `YYYYMMDD` order and validates them as a calendar date. -/
def parseYYYYMMDD (s : String) : Option NaiveDate :=
  let cs := s.data
  if cs.length = 8 ∧ cs.all Char.isDigit then
    let y : Int := (digitsVal (cs.take 4) : Int)
    let m := digitsVal ((cs.drop 4).take 2)
    let d := digitsVal (cs.drop 6)
    if 1 ≤ m ∧ m ≤ 12 ∧ 1 ≤ d ∧ d ≤ daysInMonth y m then some ⟨y, m, d⟩ else none
  else none

theorem charToDigit_digitChar (d : Nat) (h : d < 10) :
    charToDigit (digitChar d) = d := by
  interval_cases d <;> decide

theorem isDigit_digitChar (d : Nat) (h : d < 10) :
    (digitChar d).isDigit = true := by
  interval_cases d <;> decide

theorem digitsVal_replicate_zero_append (k : Nat) (cs : List Char) :
    digitsVal (List.replicate k '0' ++ cs) = digitsVal cs := by
  induction k with
  | zero => simp
  | succ n ih =>
    have : List.replicate (n + 1) '0' ++ cs = '0' :: (List.replicate n '0' ++ cs) := by
      simp [List.replicate_succ]

    rw [this]
    unfold digitsVal at ih ⊢
    simpa [charToDigit] using ih

theorem digitsVal_reverse_map (l : List Nat) (hl : ∀ d ∈ l, d < 10) :
    digitsVal (l.reverse.map digitChar) = Nat.ofDigits 10 l := by
  induction l with
  | nil => simp [digitsVal, Nat.ofDigits]
  | cons d t ih =>
    have hd : d < 10 := hl d (by simp)
    have ht : ∀ x ∈ t, x < 10 := fun x hx => hl x (by simp [hx])
    unfold digitsVal at ih ⊢
    rw [List.reverse_cons, List.map_append, List.foldl_append]
    simp only [List.map_cons, List.map_nil, List.foldl_cons, List.foldl_nil]
    rw [ih ht, charToDigit_digitChar d hd, Nat.ofDigits_cons]
    ring

theorem digitsVal_natDigits (n : Nat) : digitsVal (natDigits n) = n := by
  unfold natDigits
  rw [natDigitList_eq_digits]
  rw [digitsVal_reverse_map _ (fun d hd => Nat.digits_lt_base (by norm_num) hd)]
  exact Nat.ofDigits_digits 10 n

theorem digitsVal_padDigits (w n : Nat) : digitsVal (padDigits w n) = n := by
  unfold padDigits
  rw [digitsVal_replicate_zero_append, digitsVal_natDigits]

theorem natDigits_length_le (w n : Nat) (h : n < 10 ^ w) :
    (natDigits n).length ≤ w := by
  unfold natDigits
  rw [List.length_map, List.length_reverse, natDigitList_eq_digits]
  by_cases hz : n = 0
  · simp [hz]
  · rw [Nat.digits_len 10 n (by norm_num) hz]
    have := (Nat.lt_pow_iff_log_lt (by norm_num : (1:Nat) < 10) hz).mp h
    omega

theorem natDigits_all_digit (n : Nat) : ∀ c ∈ natDigits n, c.isDigit = true := by
  intro c hc
  unfold natDigits at hc
  rw [natDigitList_eq_digits] at hc
  rcases List.mem_map.mp hc with ⟨d, hd, rfl⟩
  exact isDigit_digitChar d (Nat.digits_lt_base (by norm_num) (List.mem_reverse.mp hd))

theorem padDigits_length (w n : Nat) (h : n < 10 ^ w) :
    (padDigits w n).length = w := by
  have := natDigits_length_le w n h
  unfold padDigits
  rw [List.length_append, List.length_replicate]
  omega

theorem padDigits_all_digit (w n : Nat) :
    ∀ c ∈ padDigits w n, c.isDigit = true := by
  intro c hc
  unfold padDigits at hc
  rcases List.mem_append.mp hc with h | h
  · rw [List.eq_of_mem_replicate h]; decide
  · exact natDigits_all_digit n c h

theorem take_length_append (n : Nat) (A B : List Char) (h : A.length = n) :
    (A ++ B).take n = A := by
  subst h; simp

theorem drop_length_append (n : Nat) (A B : List Char) (h : A.length = n) :
    (A ++ B).drop n = B := by
  subst h; simp

/-! ## Eight-digit date tokens -/

/-- A token of exactly eight characters, all decimal digits. -/
def eightDigitToken (s : String) : Prop :=
  s.length = 8 ∧ ∀ c ∈ s.data, c.isDigit = true

theorem daysInMonth_le_31 (y : Int) (m : Nat) : daysInMonth y m ≤ 31 := by
  unfold daysInMonth
  split_ifs <;> omega

theorem formatYYYYMMDD_data (d : NaiveDate) (h0 : 0 ≤ d.year) (h1 : d.year < 10000) :
    (formatYYYYMMDD d).data =
      padDigits 4 d.year.toNat ++ padDigits 2 d.month ++ padDigits 2 d.day := by
  unfold formatYYYYMMDD formatYear
  rw [if_pos ⟨h0, h1⟩]

theorem formatYYYYMMDD_eightDigit (d : NaiveDate) (hv : d.Valid)
    (h0 : 0 ≤ d.year) (h1 : d.year < 10000) :
    eightDigitToken (formatYYYYMMDD d) := by
  obtain ⟨hymin, hymax, hm1, hm2, hd1, hd2⟩ := hv
  have hytn : d.year.toNat < 10 ^ 4 := by omega
  have hmn : d.month < 10 ^ 2 := by omega
  have hdn : d.day < 10 ^ 2 := by
    have := daysInMonth_le_31 d.year d.month
    omega
  have hdata := formatYYYYMMDD_data d h0 h1
  constructor
  · show (formatYYYYMMDD d).data.length = 8
    rw [hdata]
    simp [padDigits_length 4 _ hytn, padDigits_length 2 _ hmn, padDigits_length 2 _ hdn]
  · intro c hc
    rw [hdata] at hc
    rcases List.mem_append.mp hc with h | h
    · rcases List.mem_append.mp h with h | h
      · exact padDigits_all_digit 4 _ c h
      · exact padDigits_all_digit 2 _ c h
    · exact padDigits_all_digit 2 _ c h

/-- C4 counterexample: the date 12345-01-01 is a representable chrono
`NaiveDate`, yet chrono's `%Y%m%d` formatting renders it as the
ten-character token "+123450101", not as eight digits. -/
theorem dateRange_eight_digit_cex :
    ({ begin_date := ⟨12345, 1, 1⟩, end_date := ⟨2026, 1, 1⟩ } : DateRange).Valid ∧
    formatYYYYMMDD ⟨12345, 1, 1⟩ = "+123450101" ∧
    ¬ eightDigitToken (formatYYYYMMDD ⟨12345, 1, 1⟩) := by
  refine ⟨by decide, by decide, ?_⟩
  intro h
  have := h.1
  revert this
  decide

/-- C4 (amended): for every valid DateRange both of whose years lie in
0..=9999, encoding each of the two date bounds yields a token of exactly
8 characters, all decimal digits, zero-padded in YYYYMMDD order. -/
theorem dateRange_tokens_eight_digits (r : DateRange) (hv : r.Valid)
    (hb0 : 0 ≤ r.begin_date.year) (hb1 : r.begin_date.year < 10000)
    (he0 : 0 ≤ r.end_date.year) (he1 : r.end_date.year < 10000) :
    eightDigitToken (formatYYYYMMDD r.begin_date) ∧
    eightDigitToken (formatYYYYMMDD r.end_date) :=
  ⟨formatYYYYMMDD_eightDigit r.begin_date hv.1 hb0 hb1,
   formatYYYYMMDD_eightDigit r.end_date hv.2 he0 he1⟩

/-- Witness for the amended C4 at the repository's example date range. -/
theorem dateRange_tokens_eight_digits_witness :
    eightDigitToken (formatYYYYMMDD (⟨2026, 1, 1⟩ : NaiveDate)) ∧
    eightDigitToken (formatYYYYMMDD (⟨2026, 1, 31⟩ : NaiveDate)) :=
  dateRange_tokens_eight_digits
    { begin_date := ⟨2026, 1, 1⟩, end_date := ⟨2026, 1, 31⟩ }
    (by constructor <;> decide) (by decide) (by decide) (by decide) (by decide)

/-- C9: for every representable date whose year lies in 0..=9999,
encoding with `%Y%m%d` and then re-parsing the 8-digit token recovers the
original date exactly. -/
theorem yyyymmdd_roundtrip (d : NaiveDate) (hv : d.Valid)
    (h0 : 0 ≤ d.year) (h1 : d.year < 10000) :
    parseYYYYMMDD (formatYYYYMMDD d) = some d := by
  obtain ⟨hymin, hymax, hm1, hm2, hd1, hd2⟩ := hv
  have hytn : d.year.toNat < 10 ^ 4 := by omega
  have hmn : d.month < 10 ^ 2 := by omega
  have hdn : d.day < 10 ^ 2 := by
    have := daysInMonth_le_31 d.year d.month
    omega
  have hALen : (padDigits 4 d.year.toNat).length = 4 := padDigits_length _ _ hytn
  have hBLen : (padDigits 2 d.month).length = 2 := padDigits_length _ _ hmn
  have hCLen : (padDigits 2 d.day).length = 2 := padDigits_length _ _ hdn
  have hdata := formatYYYYMMDD_data d h0 h1
  have h8 := formatYYYYMMDD_eightDigit d ⟨hymin, hymax, hm1, hm2, hd1, hd2⟩ h0 h1
  have hlen : (formatYYYYMMDD d).data.length = 8 := h8.1
  have hall : (formatYYYYMMDD d).data.all Char.isDigit = true :=
    List.all_eq_true.mpr h8.2
  have htake4 : (formatYYYYMMDD d).data.take 4 = padDigits 4 d.year.toNat := by
    rw [hdata, List.append_assoc]
    exact take_length_append 4 _ _ hALen
  have hdrop4 : (formatYYYYMMDD d).data.drop 4 = padDigits 2 d.month ++ padDigits 2 d.day := by
    rw [hdata, List.append_assoc]
    exact drop_length_append 4 _ _ hALen
  have htake2 : (padDigits 2 d.month ++ padDigits 2 d.day).take 2 = padDigits 2 d.month :=
    take_length_append 2 _ _ hBLen
  have hdrop6 : (formatYYYYMMDD d).data.drop 6 = padDigits 2 d.day := by
    have h6 : (padDigits 4 d.year.toNat ++ padDigits 2 d.month).length = 6 := by
      rw [List.length_append, hALen, hBLen]
    rw [hdata]
    exact drop_length_append 6 _ _ h6
  have hyy : ((d.year.toNat : Int)) = d.year := Int.toNat_of_nonneg h0
  simp only [parseYYYYMMDD]
  rw [if_pos ⟨hlen, hall⟩, htake4, hdrop4, htake2, hdrop6,
    digitsVal_padDigits, digitsVal_padDigits, digitsVal_padDigits, hyy]
  rw [if_pos ⟨hm1, hm2, hd1, hd2⟩]

/-- Witness for C9 at a concrete date. -/
theorem yyyymmdd_roundtrip_witness :
    parseYYYYMMDD (formatYYYYMMDD (⟨2026, 1, 31⟩ : NaiveDate)) = some ⟨2026, 1, 31⟩ :=
  yyyymmdd_roundtrip ⟨2026, 1, 31⟩ (by decide) (by decide) (by decide)

/-! ## Rust `str::parse::<f32>` (the numeric-string decoder's engine) -/

/-- Result of Rust's `str::parse::<f32>`.  Finite magnitudes are kept as
exact rationals: f32 rounding (and the clamping of out-of-range
magnitudes to infinity or zero) is not modelled, since no claim observes
a rounded value, only which inputs are accepted. -/
inductive F32Val where
  | finite (q : ℚ)
  | inf (neg : Bool)
  | nan
deriving DecidableEq

/-- Exact rational value of a parsed decimal float literal. -/
def decimalValue (neg : Bool) (intPart fracPart : List Char) (e : Int) : ℚ :=
  let mag : ℚ := (digitsVal (intPart ++ fracPart) : ℚ) / (10 : ℚ) ^ fracPart.length * (10 : ℚ) ^ e
  if neg then -mag else mag

/-- Longest leading run of ASCII decimal digits, and the remainder. -/
def takeDigits (cs : List Char) : List Char × List Char :=
  (cs.takeWhile Char.isDigit, cs.dropWhile Char.isDigit)

/-- Exponent-and-end step of the float grammar: either the end of input,
or `('e'|'E') Sign? Digit+` consuming the rest of the input. -/
def parseExpPart (neg : Bool) (ip fp : List Char) : List Char → Option F32Val
  | [] => some (.finite (decimalValue neg ip fp 0))
  | c :: r =>
    if c = 'e' ∨ c = 'E' then
      let (eneg, r2) :=
        match r with
        | '+' :: rr => (false, rr)
        | '-' :: rr => (true, rr)
        | rr => (false, rr)
      let (eds, r3) := takeDigits r2
      if eds.isEmpty ∨ ¬ r3.isEmpty then none
      else
        some (.finite (decimalValue neg ip fp
          (if eneg then -(digitsVal eds : Int) else (digitsVal eds : Int))))
    else none

/-- Rust's `str::parse::<f32>` grammar (core dec2flt): optional sign,
then case-insensitively `inf`, `infinity` or `nan`, or a decimal number
`Digit+ | Digit+ '.' Digit* | Digit* '.' Digit+` followed by an optional
exponent `('e'|'E') Sign? Digit+`; nothing else (no whitespace, no
locale separators). -/
def parseF32 (s : String) : Option F32Val :=
  let (neg, rest) :=
    match s.data with
    | '+' :: r => (false, r)
    | '-' :: r => (true, r)
    | r => (false, r)
  let lower := rest.map Char.toLower
  if lower = "inf".data ∨ lower = "infinity".data then some (.inf neg)
  else if lower = "nan".data then some .nan
  else
    let (ip, r1) := takeDigits rest
    match r1 with
    | '.' :: r2 =>
      let (fp, r3) := takeDigits r2
      if ip.isEmpty ∧ fp.isEmpty then none
      else parseExpPart neg ip fp r3
    | r2 => if ip.isEmpty then none else parseExpPart neg ip [] r2

/-! ## chrono `NaiveDateTime::parse_from_str` with format "%Y-%m-%d %H:%M" -/

/-- A chrono `NaiveDateTime` by its calendar and clock fields.  The
format under verification carries no seconds; chrono defaults the second
to 0 when absent from the parsed fields. -/
structure NaiveDateTime where
  year : Int
  month : Nat
  day : Nat
  hour : Nat
  minute : Nat
  second : Nat
deriving DecidableEq

/-- chrono `scan::number`: between `mn` and `mx` leading ASCII digits,
taken greedily, with the numeric value and the remainder. -/
def scanNumber (mn mx : Nat) (cs : List Char) : Option (Nat × List Char) :=
  let ds := (cs.takeWhile Char.isDigit).take mx
  if ds.length < mn then none else some (digitsVal ds, cs.drop ds.length)

/-- chrono's parsing of `%Y` (a signed numeric item of width 4): with an
explicit `+`/`-` sign, unlimited digits; without a sign, at most 4
digits.  chrono's intermediate i64/i32 overflow checks are subsumed by
the final `NaiveDate` year-range check in `mkNaiveDateTime`: both sides
reject every year outside `-262144..=262143`. -/
def scanSignedYear (cs : List Char) : Option (Int × List Char) :=
  match cs with
  | [] => none
  | c :: r =>
    if c = '-' then (scanNumber 1 r.length r).map (fun p => (-(p.1 : Int), p.2))
    else if c = '+' then (scanNumber 1 r.length r).map (fun p => ((p.1 : Int), p.2))
    else (scanNumber 1 4 (c :: r)).map (fun p => ((p.1 : Int), p.2))

/-- Literal item of a chrono format string: the exact next character. -/
def expectChar (c : Char) (cs : List Char) : Option (List Char) :=
  match cs with
  | x :: r => if x = c then some r else none
  | [] => none

/-- Space item of a chrono format string: skips any run (possibly empty)
of whitespace characters. -/
def skipWs (cs : List Char) : List Char := cs.dropWhile Char.isWhitespace

/-- chrono `Parsed::to_naive_datetime` for year/month/day/hour/minute
fields: range-check everything and default the second to 0. -/
def mkNaiveDateTime (y : Int) (m d h mi : Nat) : Option NaiveDateTime :=
  if -262144 ≤ y ∧ y ≤ 262143 ∧ 1 ≤ m ∧ m ≤ 12 ∧ 1 ≤ d ∧ d ≤ daysInMonth y m ∧
      h ≤ 23 ∧ mi ≤ 59 then
    some ⟨y, m, d, h, mi, 0⟩
  else none

/-- chrono `NaiveDateTime::parse_from_str(s, "%Y-%m-%d %H:%M")`: the
format items are Year, `-`, Month, `-`, Day, Space, Hour, `:`, Minute,
and the whole input must be consumed. -/
def parseCompactDatetime (s : String) : Option NaiveDateTime := do
  let (y, cs) ← scanSignedYear s.data
  let cs ← expectChar '-' cs
  let (m, cs) ← scanNumber 1 2 cs
  let cs ← expectChar '-' cs
  let (d, cs) ← scanNumber 1 2 cs
  let cs := skipWs cs
  let (h, cs) ← scanNumber 1 2 cs
  let cs ← expectChar ':' cs
  let (mi, cs) ← scanNumber 1 2 cs
  if cs.isEmpty then mkNaiveDateTime y m d h mi else none

/-! ## Field-level decoders of src/products/mod.rs -/

/-- The `de_string_to_f32` decoder: `String::deserialize` (accepting only
a JSON string) then `str::parse::<f32>`, any parse error surfacing as a
serde custom decode error. -/
def de_string_to_f32 : Json → Except String F32Val
  | .str s =>
    match parseF32 s with
    | some v => .ok v
    | none => .error ("invalid float literal: " ++ s)
  | _ => .error "invalid type: expected a string"

/-- The `de_string_to_native_datetime` decoder: `String::deserialize`
then `NaiveDateTime::parse_from_str` with format `"%Y-%m-%d %H:%M"`. -/
def de_string_to_native_datetime : Json → Except String NaiveDateTime
  | .str s =>
    match parseCompactDatetime s with
    | some v => .ok v
    | none => .error ("datetime parse error: " ++ s)
  | _ => .error "invalid type: expected a string"

/-! ## TideType and Prediction decoding (src/products/predictions.rs) -/

/-- The `TideType` enumeration with its serde rename tokens. -/
inductive TideType where
  | High | Low | HigherHigh | LowerLow
deriving DecidableEq, Fintype

/-- Variant lookup for the derived `Deserialize` of `TideType`. -/
def TideType.ofToken (s : String) : Option TideType :=
  if s = "H" then some .High
  else if s = "L" then some .Low
  else if s = "HH" then some .HigherHigh
  else if s = "LL" then some .LowerLow
  else none

/-- serde decoding of the optional `type` field: JSON null decodes to
`none`, a known variant token to `some`, anything else is an error. -/
def deTideTypeOpt : Json → Except String (Option TideType)
  | .null => .ok none
  | .str s =>
    match TideType.ofToken s with
    | some t => .ok (some t)
    | none => .error ("unknown variant " ++ s)
  | _ => .error "invalid type: expected variant identifier"

/-- The `Prediction` record: datetime (wire field `t`), height (wire
field `v`), optional tide type (wire field `type`). -/
structure Prediction where
  datetime : NaiveDateTime
  height : F32Val
  tide_type : Option TideType
deriving DecidableEq

/-- Accumulator of the derived map visitor for `Prediction`. -/
structure PredFields where
  t : Option NaiveDateTime
  v : Option F32Val
  ty : Option (Option TideType)

/-- The derived `Deserialize` map visitor for `Prediction`: walk the
object's entries in order; a known key decodes with its field-level
decoder (erroring on a duplicate), unknown keys are ignored (serde's
default). -/
def decodePredFields : List (String × Json) → PredFields → Except String PredFields
  | [], acc => .ok acc
  | (k, jv) :: rest, acc =>
    if k = "t" then
      match acc.t with
      | some _ => .error "duplicate field t"
      | none => do
        let x ← de_string_to_native_datetime jv
        decodePredFields rest { acc with t := some x }
    else if k = "v" then
      match acc.v with
      | some _ => .error "duplicate field v"
      | none => do
        let x ← de_string_to_f32 jv
        decodePredFields rest { acc with v := some x }
    else if k = "type" then
      match acc.ty with
      | some _ => .error "duplicate field type"
      | none => do
        let x ← deTideTypeOpt jv
        decodePredFields rest { acc with ty := some x }
    else decodePredFields rest acc

/-- Decoding one `Prediction` from a JSON value: `t` and `v` are
required, a missing `type` becomes `none` (it is an `Option` field). -/
def Prediction.decode (j : Json) : Except String Prediction :=
  match j with
  | .obj fields => do
    let acc ← decodePredFields fields ⟨none, none, none⟩
    match acc.t with
    | none => .error "missing field t"
    | some t =>
      match acc.v with
      | none => .error "missing field v"
      | some v => .ok ⟨t, v, acc.ty.getD none⟩
  | _ => .error "invalid type: expected struct Prediction"

/-- Element-wise decoding of a prediction list; serde's sequence visitor
fails the whole sequence on the first bad element (no partial result). -/
def decodePredList : List Json → Except String (List Prediction)
  | [] => .ok []
  | x :: xs => do
    let p ← Prediction.decode x
    let ps ← decodePredList xs
    .ok (p :: ps)

/-- Decoding `Vec<Prediction>`: only a JSON array is accepted. -/
def decodeVec (j : Json) : Except String (List Prediction) :=
  match j with
  | .arr elems => decodePredList elems
  | _ => .error "invalid type: expected a sequence"

/-- The `PredictionsResponse` struct: one field `predictions`. -/
structure PredictionsResponse where
  predictions : List Prediction
deriving DecidableEq

/-- Map visitor for `PredictionsResponse` (same serde conventions). -/
def decodeRespFields : List (String × Json) → Option (List Prediction) →
    Except String (Option (List Prediction))
  | [], acc => .ok acc
  | (k, jv) :: rest, acc =>
    if k = "predictions" then
      match acc with
      | some _ => .error "duplicate field predictions"
      | none => do
        let x ← decodeVec jv
        decodeRespFields rest (some x)
    else decodeRespFields rest acc

/-- Decoding a `PredictionsResponse` from a JSON value. -/
def PredictionsResponse.decode (j : Json) : Except String PredictionsResponse :=
  match j with
  | .obj fields => do
    let acc ← decodeRespFields fields none
    match acc with
    | none => .error "missing field predictions"
    | some l => .ok ⟨l⟩
  | _ => .error "invalid type: expected struct PredictionsResponse"

/-! ## The response envelope and fetch (src/lib.rs) -/

/-- The `ApiError` struct: `{ message: String }`. -/
structure ApiError where
  message : String
deriving DecidableEq

/-- The `ErrorWrapper` struct: `{ error: ApiError }`. -/
structure ErrorWrapper where
  error : ApiError
deriving DecidableEq

/-- First value of a key in a JSON object's entry list. -/
def getFirst : List (String × Json) → String → Option Json
  | [], _ => none
  | (k, v) :: rest, key => if k = key then some v else getFirst rest key

/-- Map visitor for `ApiError`. -/
def decodeApiErrFields : List (String × Json) → Option String →
    Except String (Option String)
  | [], acc => .ok acc
  | (k, jv) :: rest, acc =>
    if k = "message" then
      match acc with
      | some _ => .error "duplicate field message"
      | none =>
        match jv with
        | .str s => decodeApiErrFields rest (some s)
        | _ => .error "invalid type: expected a string"
    else decodeApiErrFields rest acc

/-- Decoding an `ApiError` from a JSON value. -/
def ApiError.decode (j : Json) : Except String ApiError :=
  match j with
  | .obj fields => do
    let acc ← decodeApiErrFields fields none
    match acc with
    | none => .error "missing field message"
    | some s => .ok ⟨s⟩
  | _ => .error "invalid type: expected struct ApiError"

/-- Map visitor for `ErrorWrapper`. -/
def decodeWrapperFields : List (String × Json) → Option ApiError →
    Except String (Option ApiError)
  | [], acc => .ok acc
  | (k, jv) :: rest, acc =>
    if k = "error" then
      match acc with
      | some _ => .error "duplicate field error"
      | none => do
        let x ← ApiError.decode jv
        decodeWrapperFields rest (some x)
    else decodeWrapperFields rest acc

/-- Decoding an `ErrorWrapper` (the error envelope
`{"error": {"message": string}}`) from a JSON value. -/
def ErrorWrapper.decode (j : Json) : Except String ErrorWrapper :=
  match j with
  | .obj fields => do
    let acc ← decodeWrapperFields fields none
    match acc with
    | none => .error "missing field error"
    | some e => .ok ⟨e⟩
  | _ => .error "invalid type: expected struct ErrorWrapper"

/-- The untagged `NoaaResponse<T>` enum of src/lib.rs. -/
inductive NoaaResponse (T : Type) where
  | success (data : T)
  | failure (wrapper : ErrorWrapper)

/-- serde's untagged-enum deserialization for `NoaaResponse<T>`: try the
variants in declaration order — first the success payload `T`, and only
if that fails structurally, the error envelope; if both fail, the body is
malformed. -/
def NoaaResponse.decode {T : Type} (decT : Json → Except String T) (j : Json) :
    Except String (NoaaResponse T) :=
  match decT j with
  | .ok v => .ok (.success v)
  | .error _ =>
    match ErrorWrapper.decode j with
    | .ok w => .ok (.failure w)
    | .error _ => .error "data did not match any variant of untagged enum NoaaResponse"

/-- Kinds of `reqwest::Error`.  Errors produced by `send()` (transport
failures) carry one of the non-`decode` kinds; errors produced by
`.json()` (body/JSON decode failures) carry kind `decode`, observable via
`reqwest::Error::is_decode`. -/
inductive ReqwestKind where
  | builder | request | redirect | status | body | decode | upgrade
deriving DecidableEq

/-- A `reqwest::Error`: its kind plus its message detail. -/
structure ReqwestError where
  kind : ReqwestKind
  msg : String
deriving DecidableEq

/-- The `NoaaTideError` enum of src/lib.rs. -/
inductive NoaaTideError where
  | HttpError (e : ReqwestError)
  | ApiError (msg : String)
  | Unknown
deriving DecidableEq

/-- Outcome of the HTTP round trip, as seen by `fetch` after `send()`:
either the transport failed, or a response body arrived (already
JSON-parsed; a syntactically malformed body is a decode-kind
`reqwest::Error` exactly like a shape mismatch, so it is folded into the
shape-level failure of both decode attempts). -/
inductive TransportOutcome where
  | failure (e : ReqwestError)
  | body (j : Json)

/-- The decode stage of `NoaaTideClient::fetch`: run the untagged
envelope decoder over the body; an envelope-decode failure is a
decode-kind `reqwest::Error` converted by `?` into
`NoaaTideError::HttpError`; a decoded `Failure` becomes
`NoaaTideError::ApiError` with the remote message. -/
def fetchDecodeStage {T : Type} (decT : Json → Except String T) (j : Json) :
    Except NoaaTideError T :=
  match NoaaResponse.decode decT j with
  | .error e => .error (.HttpError ⟨.decode, e⟩)
  | .ok (.success data) => .ok data
  | .ok (.failure w) => .error (.ApiError w.error.message)

/-- `NoaaTideClient::fetch` over a transport outcome: a `send()` failure
is converted by `?` into `HttpError`; otherwise the body is decoded. -/
def fetch {T : Type} (decT : Json → Except String T) :
    TransportOutcome → Except NoaaTideError T
  | .failure e => .error (.HttpError e)
  | .body j => fetchDecodeStage decT j

/-- The spec's §7 error taxonomy, as a classification of
`NoaaTideError` values: `ApiError` is an API-reported error, `HttpError`
is a decode failure when its wrapped `reqwest::Error` has kind `decode`
(`is_decode()`), and a transport failure otherwise. -/
inductive ErrorClass where
  | transport | apiReported | decodeFailure | unclassified
deriving DecidableEq

/-- Classification function for the §7 taxonomy. -/
def classify : NoaaTideError → ErrorClass
  | .HttpError e => if e.kind = .decode then .decodeFailure else .transport
  | .ApiError _ => .apiReported
  | .Unknown => .unclassified

/-! ## Concrete bodies from the spec's examples and the repository tests -/

/-- The success body of §6/§8: one prediction record. -/
def successBody : Json :=
  .obj [("predictions", .arr
    [.obj [("t", .str "2026-01-01 12:34"), ("v", .str "3.5"), ("type", .str "H")]])]

/-- The error body of §8: `{"error": {"message": "No data was found."}}`. -/
def noDataBody : Json :=
  .obj [("error", .obj [("message", .str "No data was found.")])]

theorem decimalValue_35 : decimalValue false ['3'] ['5'] 0 = 7 / 2 := by
  have hdv : digitsVal (['3'] ++ ['5']) = 35 := by decide
  unfold decimalValue
  rw [hdv]
  norm_num

theorem decimalValue_neg35 : decimalValue true ['3'] ['5'] 0 = -(7 / 2) := by
  have hdv : digitsVal (['3'] ++ ['5']) = 35 := by decide
  unfold decimalValue
  rw [hdv]
  norm_num

/-- C7: the numeric-string decoder is exactly Rust's float grammar on a
JSON string: a string accepted by `str::parse::<f32>` decodes to its
parsed magnitude, any other string is a decode error (never a defaulted
value); in particular "abc" is a decode error, and "3.5", "+3.5", "-3.5"
parse with '.' as separator and optional leading sign. -/
theorem numeric_string_decoder_total (s : String) :
    (∀ v, parseF32 s = some v → de_string_to_f32 (.str s) = .ok v) ∧
    (parseF32 s = none →
      de_string_to_f32 (.str s) = .error ("invalid float literal: " ++ s)) ∧
    de_string_to_f32 (.str "abc") = .error "invalid float literal: abc" ∧
    de_string_to_f32 (.str "3.5") = .ok (.finite (7 / 2)) ∧
    de_string_to_f32 (.str "+3.5") = .ok (.finite (7 / 2)) ∧
    de_string_to_f32 (.str "-3.5") = .ok (.finite (-(7 / 2))) := by
  refine ⟨?_, ?_, rfl, ?_, ?_, ?_⟩
  · intro v h
    simp [de_string_to_f32, h]
  · intro h
    simp [de_string_to_f32, h]
  · rw [← decimalValue_35]; rfl
  · rw [← decimalValue_35]; rfl
  · rw [← decimalValue_neg35]; rfl

/-- Witness for C7 at concrete inputs. -/
theorem numeric_string_decoder_total_witness :
    de_string_to_f32 (.str "abc") = .error "invalid float literal: abc" ∧
    de_string_to_f32 (.str "3.5") = .ok (.finite (7 / 2)) :=
  ⟨(numeric_string_decoder_total "abc").2.1 rfl,
   (numeric_string_decoder_total "3.5").2.2.2.1⟩

/-- C8: the tide-type field decodes exactly the tokens "H", "L", "HH",
"LL" to High, Low, HigherHigh, LowerLow; any other token for the field
is a decode failure; and a record without the field decodes successfully
with `tide_type = none`. -/
theorem tide_type_decoding :
    deTideTypeOpt (.str "H") = .ok (some .High) ∧
    deTideTypeOpt (.str "L") = .ok (some .Low) ∧
    deTideTypeOpt (.str "HH") = .ok (some .HigherHigh) ∧
    deTideTypeOpt (.str "LL") = .ok (some .LowerLow) ∧
    (∀ s : String, s ≠ "H" → s ≠ "L" → s ≠ "HH" → s ≠ "LL" →
      deTideTypeOpt (.str s) = .error ("unknown variant " ++ s)) ∧
    Prediction.decode (.obj [("t", .str "2026-01-01 12:34"), ("v", .str "3.5")]) =
      .ok ⟨⟨2026, 1, 1, 12, 34, 0⟩, .finite (7 / 2), none⟩ := by
  refine ⟨rfl, rfl, rfl, rfl, ?_, ?_⟩
  · intro s h1 h2 h3 h4
    simp [deTideTypeOpt, TideType.ofToken, h1, h2, h3, h4]
  · rw [← decimalValue_35]; rfl

/-- Witness for C8: the unknown token "X" is rejected. -/
theorem tide_type_decoding_witness :
    deTideTypeOpt (.str "X") = .error ("unknown variant " ++ "X") :=
  tide_type_decoding.2.2.2.2.1 "X" (by decide) (by decide) (by decide) (by decide)

/-! ## Exact-form compact datetimes -/

/-- Renders the exact `"YYYY-MM-DD HH:MM"` form (zero-padded, one space,
no seconds) of the given fields. -/
def renderCompact (y m d h mi : Nat) : String :=
  ⟨padDigits 4 y ++ '-' :: (padDigits 2 m ++ '-' ::
    (padDigits 2 d ++ ' ' :: (padDigits 2 h ++ ':' :: padDigits 2 mi)))⟩

/-- Written from the spec's words (§4.4): a string is of "the exact form
YYYY-MM-DD HH:MM" when it is 16 characters long with digits and the
literal separators in exactly these positions. -/
def isCompactFormatSpec (s : String) : Bool :=
  match s.data with
  | [y1, y2, y3, y4, s1, m1, m2, s2, d1, d2, sp, h1, h2, c1, n1, n2] =>
    y1.isDigit && y2.isDigit && y3.isDigit && y4.isDigit && s1 == '-' &&
    m1.isDigit && m2.isDigit && s2 == '-' && d1.isDigit && d2.isDigit &&
    sp == ' ' && h1.isDigit && h2.isDigit && c1 == ':' && n1.isDigit && n2.isDigit
  | _ => false

theorem isDigit_not_ws (c : Char) (h : c.isDigit = true) :
    c.isWhitespace = false := by
  by_contra hne
  have hw : c.isWhitespace = true := by
    cases hcw : c.isWhitespace
    · exact absurd hcw hne
    · rfl
  have hc : c = ' ' ∨ c = '\t' ∨ c = '\r' ∨ c = '\n' := by
    simpa [Char.isWhitespace, Bool.or_eq_true, decide_eq_true_eq, or_assoc] using hw
  rcases hc with rfl | rfl | rfl | rfl <;> exact absurd h (by decide)

theorem takeWhile_digits_append (ds rest : List Char)
    (hds : ∀ c ∈ ds, c.isDigit = true) :
    (ds ++ rest).takeWhile Char.isDigit = ds ++ rest.takeWhile Char.isDigit := by
  induction ds with
  | nil => simp
  | cons c t ih =>
    have hc : c.isDigit = true := hds c (by simp)
    have ht : ∀ x ∈ t, x.isDigit = true := fun x hx => hds x (by simp [hx])
    simp [List.takeWhile_cons, hc, ih ht]

theorem scanNumber_exact (mn mx : Nat) (ds rest : List Char)
    (hlen : ds.length = mx) (hmn : mn ≤ mx)
    (hds : ∀ c ∈ ds, c.isDigit = true) :
    scanNumber mn mx (ds ++ rest) = some (digitsVal ds, rest) := by
  have h1 : (ds ++ rest).takeWhile Char.isDigit = ds ++ rest.takeWhile Char.isDigit :=
    takeWhile_digits_append ds rest hds
  have h2 : (ds ++ rest.takeWhile Char.isDigit).take mx = ds :=
    take_length_append mx _ _ hlen
  have h3 : (ds ++ rest).drop ds.length = rest :=
    drop_length_append ds.length _ _ rfl
  simp only [scanNumber, h1, h2]
  rw [if_neg (by omega), h3]

theorem scanSignedYear_exact (ds rest : List Char) (hlen : ds.length = 4)
    (hds : ∀ c ∈ ds, c.isDigit = true) :
    scanSignedYear (ds ++ rest) = some ((digitsVal ds : Int), rest) := by
  obtain ⟨c, t, rfl⟩ : ∃ c t, ds = c :: t := by
    cases ds with
    | nil => simp at hlen
    | cons c t => exact ⟨c, t, rfl⟩
  have hc : c.isDigit = true := hds c (by simp)
  have hc1 : ¬(c = '-') := by rintro rfl; exact absurd hc (by decide)
  have hc2 : ¬(c = '+') := by rintro rfl; exact absurd hc (by decide)
  have hsn := scanNumber_exact 1 4 (c :: t) rest hlen (by omega) hds
  simp only [List.cons_append, scanSignedYear, if_neg hc1, if_neg hc2]
  rw [← List.cons_append, hsn]
  simp

theorem expectChar_head (c : Char) (r : List Char) :
    expectChar c (c :: r) = some r := by
  simp [expectChar]

theorem skipWs_space (X : List Char) : skipWs (' ' :: X) = skipWs X := rfl

theorem skipWs_digits_append (ds rest : List Char) (hne : ds ≠ [])
    (hds : ∀ c ∈ ds, c.isDigit = true) :
    skipWs (ds ++ rest) = ds ++ rest := by
  cases ds with
  | nil => exact absurd rfl hne
  | cons c t =>
    have hcw : c.isWhitespace = false := isDigit_not_ws c (hds c (by simp))
    simp [skipWs, List.dropWhile_cons, hcw]

theorem padDigits_ne_nil (w n : Nat) (hw : 1 ≤ w) (h : n < 10 ^ w) :
    padDigits w n ≠ [] := by
  intro hnil
  have := padDigits_length w n h
  rw [hnil] at this
  simp at this
  omega

/-- C6 (amended): the compact-datetime decoder accepts every string of
the exact form `"YYYY-MM-DD HH:MM"` with in-range field values, producing
the corresponding timezone-naive datetime (seconds zero); and the §8
success body decodes to one Prediction with datetime 2026-01-01T12:34:00.
(chrono is lenient, so the decoder does not fail on every deviation from
the exact form — see the counterexample.) -/
theorem compact_datetime_exact_form (y m d h mi : Nat) (hy : y ≤ 9999)
    (hm1 : 1 ≤ m) (hm2 : m ≤ 12) (hd1 : 1 ≤ d)
    (hd2 : d ≤ daysInMonth (y : Int) m) (hh : h ≤ 23) (hmi : mi ≤ 59) :
    parseCompactDatetime (renderCompact y m d h mi) = some ⟨(y : Int), m, d, h, mi, 0⟩ ∧
    PredictionsResponse.decode successBody =
      .ok ⟨[⟨⟨2026, 1, 1, 12, 34, 0⟩, .finite (7 / 2), some .High⟩]⟩ := by
  constructor
  · have hylt : y < 10 ^ 4 := by omega
    have hmlt : m < 10 ^ 2 := by omega
    have hdlt : d < 10 ^ 2 := by
      have := daysInMonth_le_31 (y : Int) m
      omega
    have hhlt : h < 10 ^ 2 := by omega
    have hmilt : mi < 10 ^ 2 := by omega
    have hY := scanSignedYear_exact (padDigits 4 y)
      ('-' :: (padDigits 2 m ++ '-' :: (padDigits 2 d ++ ' ' ::
        (padDigits 2 h ++ ':' :: padDigits 2 mi))))
      (padDigits_length 4 y hylt) (padDigits_all_digit 4 y)
    have hM := scanNumber_exact 1 2 (padDigits 2 m)
      ('-' :: (padDigits 2 d ++ ' ' :: (padDigits 2 h ++ ':' :: padDigits 2 mi)))
      (padDigits_length 2 m hmlt) (by omega) (padDigits_all_digit 2 m)
    have hD := scanNumber_exact 1 2 (padDigits 2 d)
      (' ' :: (padDigits 2 h ++ ':' :: padDigits 2 mi))
      (padDigits_length 2 d hdlt) (by omega) (padDigits_all_digit 2 d)
    have hW : skipWs (padDigits 2 h ++ ':' :: padDigits 2 mi) =
        padDigits 2 h ++ ':' :: padDigits 2 mi :=
      skipWs_digits_append _ _ (padDigits_ne_nil 2 h (by omega) hhlt)
        (padDigits_all_digit 2 h)
    have hH := scanNumber_exact 1 2 (padDigits 2 h) (':' :: padDigits 2 mi)
      (padDigits_length 2 h hhlt) (by omega) (padDigits_all_digit 2 h)
    have hMi : scanNumber 1 2 (padDigits 2 mi ++ []) = some (digitsVal (padDigits 2 mi), []) :=
      scanNumber_exact 1 2 (padDigits 2 mi) []
        (padDigits_length 2 mi hmilt) (by omega) (padDigits_all_digit 2 mi)
    rw [List.append_nil] at hMi
    simp only [parseCompactDatetime, renderCompact, hY, Option.bind_eq_bind,
      Option.some_bind, expectChar_head, hM, hD, skipWs_space, hW, hH, hMi,
      digitsVal_padDigits, List.isEmpty_nil, if_true]
    unfold mkNaiveDateTime
    rw [if_pos (by constructor <;> omega)]
  · rw [← decimalValue_35]; rfl

/-- C6 counterexample: "2026-1-1 12:34" deviates from the exact
YYYY-MM-DD HH:MM form (month and day are not two digits), yet the
decoder accepts it — chrono's numeric parsing allows 1–2 digit fields. -/
theorem compact_datetime_cex :
    isCompactFormatSpec "2026-1-1 12:34" = false ∧
    parseCompactDatetime "2026-1-1 12:34" = some ⟨2026, 1, 1, 12, 34, 0⟩ := by
  exact ⟨rfl, rfl⟩

/-- Witness for the amended C6 at the §8 example fields. -/
theorem compact_datetime_exact_form_witness :
    parseCompactDatetime (renderCompact 2026 1 1 12 34) =
      some ⟨(2026 : Int), 1, 1, 12, 34, 0⟩ ∧
    PredictionsResponse.decode successBody =
      .ok ⟨[⟨⟨2026, 1, 1, 12, 34, 0⟩, .finite (7 / 2), some .High⟩]⟩ :=
  compact_datetime_exact_form 2026 1 1 12 34 (by decide) (by decide) (by decide)
    (by decide) (by decide) (by decide) (by decide)

/-! ## Hard failure of record decoding when a field-level decoder rejects -/

theorem except_bind_ok {α β : Type} (a : α) (f : α → Except String β) :
    (Except.ok a >>= f) = f a := rfl

theorem except_bind_error {α β : Type} (e : String) (f : α → Except String β) :
    ((Except.error e : Except String α) >>= f) = Except.error e := rfl

/-- A prediction record (given by its object entries) that one of the
three field-level decoders rejects on the field's first occurrence. -/
def FieldRejected (fields : List (String × Json)) : Prop :=
  (∃ jv e, getFirst fields "t" = some jv ∧ de_string_to_native_datetime jv = .error e) ∨
  (∃ jv e, getFirst fields "v" = some jv ∧ de_string_to_f32 jv = .error e) ∨
  (∃ jv e, getFirst fields "type" = some jv ∧ deTideTypeOpt jv = .error e)

theorem decodePredFields_rejected : ∀ (fields : List (String × Json)) (acc : PredFields),
    FieldRejected fields → ∃ e, decodePredFields fields acc = .error e := by
  intro fields
  induction fields with
  | nil =>
    intro acc hr
    rcases hr with ⟨jv, e, hg, _⟩ | ⟨jv, e, hg, _⟩ | ⟨jv, e, hg, _⟩ <;> simp [getFirst] at hg
  | cons kv rest ih =>
    obtain ⟨k, jv0⟩ := kv
    intro acc hr
    by_cases hkt : k = "t"
    · subst hkt
      cases hat : acc.t with
      | some x => exact ⟨"duplicate field t", by simp [decodePredFields, hat]⟩
      | none =>
        cases hres : de_string_to_native_datetime jv0 with
        | error e => exact ⟨e, by simp [decodePredFields, hat, hres, except_bind_error]⟩
        | ok x =>
          have hr' : FieldRejected rest := by
            rcases hr with ⟨jv, e, hg, he⟩ | ⟨jv, e, hg, he⟩ | ⟨jv, e, hg, he⟩
            · simp [getFirst] at hg
              subst hg
              rw [hres] at he
              exact Except.noConfusion he
            · exact Or.inr (Or.inl ⟨jv, e, by simpa [getFirst] using hg, he⟩)
            · exact Or.inr (Or.inr ⟨jv, e, by simpa [getFirst] using hg, he⟩)
          obtain ⟨e, he⟩ := ih { acc with t := some x } hr'
          exact ⟨e, by simp [decodePredFields, hat, hres, except_bind_ok, he]⟩
    · by_cases hkv : k = "v"
      · subst hkv
        cases hav : acc.v with
        | some x => exact ⟨"duplicate field v", by simp [decodePredFields, hav]⟩
        | none =>
          cases hres : de_string_to_f32 jv0 with
          | error e => exact ⟨e, by simp [decodePredFields, hav, hres, except_bind_error]⟩
          | ok x =>
            have hr' : FieldRejected rest := by
              rcases hr with ⟨jv, e, hg, he⟩ | ⟨jv, e, hg, he⟩ | ⟨jv, e, hg, he⟩
              · exact Or.inl ⟨jv, e, by simpa [getFirst] using hg, he⟩
              · simp [getFirst] at hg
                subst hg
                rw [hres] at he
                exact Except.noConfusion he
              · exact Or.inr (Or.inr ⟨jv, e, by simpa [getFirst] using hg, he⟩)
            obtain ⟨e, he⟩ := ih { acc with v := some x } hr'
            exact ⟨e, by simp [decodePredFields, hav, hres, except_bind_ok, he]⟩
      · by_cases hkty : k = "type"
        · subst hkty
          cases haty : acc.ty with
          | some x => exact ⟨"duplicate field type", by simp [decodePredFields, haty]⟩
          | none =>
            cases hres : deTideTypeOpt jv0 with
            | error e => exact ⟨e, by simp [decodePredFields, haty, hres, except_bind_error]⟩
            | ok x =>
              have hr' : FieldRejected rest := by
                rcases hr with ⟨jv, e, hg, he⟩ | ⟨jv, e, hg, he⟩ | ⟨jv, e, hg, he⟩
                · exact Or.inl ⟨jv, e, by simpa [getFirst] using hg, he⟩
                · exact Or.inr (Or.inl ⟨jv, e, by simpa [getFirst] using hg, he⟩)
                · simp [getFirst] at hg
                  subst hg
                  rw [hres] at he
                  exact Except.noConfusion he
              obtain ⟨e, he⟩ := ih { acc with ty := some x } hr'
              exact ⟨e, by simp [decodePredFields, haty, hres, except_bind_ok, he]⟩
        · have hr' : FieldRejected rest := by
            rcases hr with ⟨jv, e, hg, he⟩ | ⟨jv, e, hg, he⟩ | ⟨jv, e, hg, he⟩
            · exact Or.inl ⟨jv, e, by simpa [getFirst, hkt] using hg, he⟩
            · exact Or.inr (Or.inl ⟨jv, e, by simpa [getFirst, hkv] using hg, he⟩)
            · exact Or.inr (Or.inr ⟨jv, e, by simpa [getFirst, hkty] using hg, he⟩)
          obtain ⟨e, he⟩ := ih acc hr'
          exact ⟨e, by simp [decodePredFields, hkt, hkv, hkty, he]⟩

theorem prediction_decode_rejected (fields : List (String × Json))
    (hr : FieldRejected fields) :
    ∃ e, Prediction.decode (.obj fields) = .error e := by
  obtain ⟨e, he⟩ := decodePredFields_rejected fields ⟨none, none, none⟩ hr
  exact ⟨e, by simp [Prediction.decode, he, except_bind_error]⟩

theorem decodePredList_err (xs : List Json) (x : Json) (hx : x ∈ xs)
    (he : ∃ e, Prediction.decode x = .error e) :
    ∃ e, decodePredList xs = .error e := by
  induction xs with
  | nil => simp at hx
  | cons a t ih =>
    rcases List.mem_cons.mp hx with rfl | hx'
    · obtain ⟨e, he⟩ := he
      exact ⟨e, by simp [decodePredList, he, except_bind_error]⟩
    · cases hres : Prediction.decode a with
      | error e => exact ⟨e, by simp [decodePredList, hres, except_bind_error]⟩
      | ok p =>
        obtain ⟨e', he'⟩ := ih hx'
        exact ⟨e', by simp [decodePredList, hres, except_bind_ok, he', except_bind_error]⟩

theorem decodeRespFields_rejected :
    ∀ (fields : List (String × Json)) (acc : Option (List Prediction)),
    (∃ jv e, getFirst fields "predictions" = some jv ∧ decodeVec jv = .error e) →
    ∃ e, decodeRespFields fields acc = .error e := by
  intro fields
  induction fields with
  | nil =>
    intro acc hr
    obtain ⟨jv, e, hg, _⟩ := hr
    simp [getFirst] at hg
  | cons kv rest ih =>
    obtain ⟨k, jv0⟩ := kv
    intro acc hr
    obtain ⟨jv, e, hg, he⟩ := hr
    by_cases hk : k = "predictions"
    · subst hk
      cases hacc : acc with
      | some _ => exact ⟨"duplicate field predictions", by simp [decodeRespFields, hacc]⟩
      | none =>
        simp [getFirst] at hg
        subst hg
        exact ⟨e, by simp [decodeRespFields, hacc, he, except_bind_error]⟩
    · have hg' : getFirst rest "predictions" = some jv := by simpa [getFirst, hk] using hg
      obtain ⟨e', he'⟩ := ih acc ⟨jv, e, hg', he⟩
      exact ⟨e', by simp [decodeRespFields, hk, he']⟩

theorem predictions_response_rejected (fields : List (String × Json)) (elems : List Json)
    (hg : getFirst fields "predictions" = some (.arr elems))
    (hbad : ∃ e, decodePredList elems = .error e) :
    ∃ e, PredictionsResponse.decode (.obj fields) = .error e := by
  obtain ⟨e, he⟩ := hbad
  have hvec : decodeVec (.arr elems) = .error e := by simp [decodeVec, he]
  obtain ⟨e', he'⟩ := decodeRespFields_rejected fields none ⟨.arr elems, e, hg, hvec⟩
  exact ⟨e', by simp [PredictionsResponse.decode, he', except_bind_error]⟩

/-! ## Claims about the envelope, error taxonomy and non-string fields -/

/-- C1: for every expected success type and every JSON body, the untagged
envelope decoder yields the success variant whenever the success decoder
accepts the body (success is attempted first), and yields the error
variant whenever the success decoder rejects it but the error envelope
accepts it; the body `{"error": {"message": "No data was found."}}`
decodes through fetch to an API-reported error carrying exactly that
message (not a success, not a decode failure). -/
theorem response_envelope_order (T : Type) (decT : Json → Except String T) (j : Json) :
    (∀ v, decT j = .ok v → NoaaResponse.decode decT j = .ok (.success v)) ∧
    (∀ e w, decT j = .error e → ErrorWrapper.decode j = .ok w →
      NoaaResponse.decode decT j = .ok (.failure w)) ∧
    fetchDecodeStage PredictionsResponse.decode noDataBody =
      .error (.ApiError "No data was found.") := by
  refine ⟨?_, ?_, rfl⟩
  · intro v h
    simp [NoaaResponse.decode, h]
  · intro e w h1 h2
    simp [NoaaResponse.decode, h1, h2]

/-- Witness for C1 at the two concrete bodies of §8. -/
theorem response_envelope_order_witness :
    NoaaResponse.decode PredictionsResponse.decode successBody =
      .ok (.success ⟨[⟨⟨2026, 1, 1, 12, 34, 0⟩, .finite (7 / 2), some .High⟩]⟩) ∧
    NoaaResponse.decode PredictionsResponse.decode noDataBody =
      .ok (.failure ⟨⟨"No data was found."⟩⟩) ∧
    fetchDecodeStage PredictionsResponse.decode noDataBody =
      .error (.ApiError "No data was found.") := by
  refine ⟨(response_envelope_order _ PredictionsResponse.decode successBody).1 _ ?_,
    (response_envelope_order _ PredictionsResponse.decode noDataBody).2.1
      "missing field predictions" _ rfl rfl,
    (response_envelope_order _ PredictionsResponse.decode noDataBody).2.2⟩
  rw [← decimalValue_35]; rfl

/-- The fixed decode-failure error produced by the fetch decode stage:
serde's untagged mismatch message wrapped in a decode-kind
`reqwest::Error`, converted into `NoaaTideError::HttpError`. -/
def noaaDecodeErr : NoaaTideError :=
  .HttpError ⟨.decode, "data did not match any variant of untagged enum NoaaResponse"⟩

/-- A body whose prediction record is rejected by the numeric-string
decoder but which ALSO carries a well-formed error envelope. -/
def badRecordEnvelopeBody : Json :=
  .obj [("predictions", .arr
      [.obj [("t", .str "2026-01-01 12:34"), ("v", .str "abc"), ("type", .str "H")]]),
    ("error", .obj [("message", .str "oops")])]

/-- C2 counterexample: a body containing a record that the field-level
numeric-string decoder rejects, for which fetch nevertheless returns an
API-reported error (the body also matches the error envelope), not a
decode failure.  So "for every body containing a rejected record, fetch
returns a decode-failure error" fails as stated. -/
theorem decode_failure_cex :
    de_string_to_f32 (.str "abc") = .error "invalid float literal: abc" ∧
    getFirst [("t", Json.str "2026-01-01 12:34"), ("v", Json.str "abc"),
      ("type", Json.str "H")] "v" = some (.str "abc") ∧
    fetch PredictionsResponse.decode (.body badRecordEnvelopeBody) =
      .error (.ApiError "oops") ∧
    classify (.ApiError "oops") ≠ .decodeFailure :=
  ⟨rfl, rfl, rfl, by decide⟩

/-- C2 (amended): a body that parses as neither the success shape nor the
error envelope makes fetch return the decode-failure error, classified
apart from transport failures and API-reported errors, with no partial
result; likewise for a body containing a field-level-rejected record,
provided the body does not also match the error envelope. -/
theorem decode_failure_classified :
    (∀ j : Json,
      (∀ v, PredictionsResponse.decode j ≠ .ok v) →
      (∀ w, ErrorWrapper.decode j ≠ .ok w) →
      fetch PredictionsResponse.decode (.body j) = .error noaaDecodeErr ∧
      classify noaaDecodeErr = .decodeFailure) ∧
    (∀ (fields : List (String × Json)) (elems : List Json)
        (rfields : List (String × Json)),
      getFirst fields "predictions" = some (.arr elems) →
      Json.obj rfields ∈ elems →
      FieldRejected rfields →
      (∀ w, ErrorWrapper.decode (.obj fields) ≠ .ok w) →
      fetch PredictionsResponse.decode (.body (.obj fields)) = .error noaaDecodeErr ∧
      classify noaaDecodeErr = .decodeFailure) ∧
    (∀ e : ReqwestError, e.kind ≠ .decode → classify (.HttpError e) = .transport) ∧
    (∀ msg, classify (.ApiError msg) = .apiReported) := by
  have partA : ∀ j : Json,
      (∀ v, PredictionsResponse.decode j ≠ .ok v) →
      (∀ w, ErrorWrapper.decode j ≠ .ok w) →
      fetch PredictionsResponse.decode (.body j) = .error noaaDecodeErr ∧
      classify noaaDecodeErr = .decodeFailure := by
    intro j hs he
    cases hres : PredictionsResponse.decode j with
    | ok v => exact absurd hres (hs v)
    | error e1 =>
      cases hrese : ErrorWrapper.decode j with
      | ok w => exact absurd hrese (he w)
      | error e2 =>
        refine ⟨?_, rfl⟩
        simp [fetch, fetchDecodeStage, NoaaResponse.decode, hres, hrese, noaaDecodeErr]
  refine ⟨partA, ?_, ?_, ?_⟩
  · intro fields elems rfields hg hmem hrej he
    have hsfail : ∃ e, PredictionsResponse.decode (.obj fields) = .error e :=
      predictions_response_rejected fields elems hg
        (decodePredList_err elems (.obj rfields) hmem (prediction_decode_rejected rfields hrej))
    obtain ⟨e0, he0⟩ := hsfail
    exact partA (.obj fields) (fun _ hv => by rw [he0] at hv; exact Except.noConfusion hv) he
  · intro e hk
    simp [classify, hk]
  · intro msg
    rfl

/-- Witness for the amended C2: a body that matches neither shape. -/
theorem decode_failure_classified_witness :
    fetch PredictionsResponse.decode (.body (.str "garbage")) = .error noaaDecodeErr ∧
    classify noaaDecodeErr = .decodeFailure :=
  decode_failure_classified.1 (.str "garbage")
    (fun _ hv => Except.noConfusion hv) (fun _ hw => Except.noConfusion hw)

/-- C10: the numeric-string and compact-datetime decoders accept only
JSON strings: a record whose `v` or `t` field holds any non-string JSON
value (for example the bare number 3.5) fails to decode, even though the
value would be representable. -/
theorem non_string_field_rejected (jv : Json) (hns : ∀ s, jv ≠ .str s) :
    (∃ e, de_string_to_f32 jv = .error e) ∧
    (∃ e, de_string_to_native_datetime jv = .error e) ∧
    (∀ rfields : List (String × Json),
      getFirst rfields "v" = some jv ∨ getFirst rfields "t" = some jv →
      ∃ e, Prediction.decode (.obj rfields) = .error e) ∧
    Prediction.decode (.obj [("t", .str "2026-01-01 12:34"), ("v", .num (7 / 2)),
      ("type", .str "H")]) = .error "invalid type: expected a string" := by
  have hf : ∃ e, de_string_to_f32 jv = .error e := by
    cases jv with
    | str s => exact absurd rfl (hns s)
    | null => exact ⟨_, rfl⟩
    | bool b => exact ⟨_, rfl⟩
    | num q => exact ⟨_, rfl⟩
    | arr l => exact ⟨_, rfl⟩
    | obj l => exact ⟨_, rfl⟩
  have hdt : ∃ e, de_string_to_native_datetime jv = .error e := by
    cases jv with
    | str s => exact absurd rfl (hns s)
    | null => exact ⟨_, rfl⟩
    | bool b => exact ⟨_, rfl⟩
    | num q => exact ⟨_, rfl⟩
    | arr l => exact ⟨_, rfl⟩
    | obj l => exact ⟨_, rfl⟩
  refine ⟨hf, hdt, ?_, rfl⟩
  intro rfields hg
  apply prediction_decode_rejected
  rcases hg with hg | hg
  · obtain ⟨e, he⟩ := hf
    exact Or.inr (Or.inl ⟨jv, e, hg, he⟩)
  · obtain ⟨e, he⟩ := hdt
    exact Or.inl ⟨jv, e, hg, he⟩

/-- Witness for C10 at the bare JSON number 3.5 in the `v` field. -/
theorem non_string_field_rejected_witness :
    (∃ e, de_string_to_f32 (.num (7 / 2)) = .error e) ∧
    Prediction.decode (.obj [("t", .str "2026-01-01 12:34"), ("v", .num (7 / 2)),
      ("type", .str "H")]) = .error "invalid type: expected a string" :=
  ⟨(non_string_field_rejected (.num (7 / 2)) (fun _ h => Json.noConfusion h)).1,
   (non_string_field_rejected (.num (7 / 2)) (fun _ h => Json.noConfusion h)).2.2.2⟩

end NoaaTides
